import Mathlib

/-!
Inventory MVP: stock ledger, moving-average costing and work-order completion.

A shallow embedding of `src/server.js`.  The SQLite tables become lists of rows
inside a `Store`; every prepared statement of the helper object `q` becomes a
function on the store; every route handler becomes a function from the store to
the store it leaves behind together with the HTTP response it sends.

Modelling conventions.

* JavaScript numbers and SQLite `REAL` columns are exact rationals (`ℚ`).
  Rounding of IEEE doubles is outside the model, so the theorems below assert
  only what does not depend on rounding: which rows are written, values stored
  as submitted, signs, and sums of the ledger as the ledger defines them.
* A JSON body field is `Option`: `none` is an absent (or `null`) field.  The
  truthiness test `!x` of the source is `falsyStr` / `falsyNum`.
* `nowIso()` and the code generators are inputs (`Env.now`, `Env.batchCode`).
* better-sqlite3 runs each statement in its own implicit transaction and
  `run` throws when the store rejects the statement.  `Env.fails k` tells
  whether the `k`-th write statement issued by the request is rejected.  A
  handler that throws leaves behind whatever earlier statements committed and
  Express answers with status 500 (`Response.thrown`).
-/

namespace Inventory

/-! ## Rows (the `CREATE TABLE` statements) -/

/-- Row of `item_types`. -/
structure ItemType where
  id : Nat
  code : String
  name : String
  deriving DecidableEq, Repr

/-- Row of `items`. -/
structure Item where
  id : Nat
  sku : String
  name : String
  type_id : Nat
  unit : String
  avg_cost : ℚ
  created_at : String
  updated_at : String
  deriving DecidableEq, Repr

/-- Row of `batches`. -/
structure Batch where
  id : Nat
  code : String
  item_id : Nat
  supplier : Option String
  received_at : String
  expires_at : Option String
  qty : ℚ
  unit_cost : ℚ
  created_at : String
  deriving DecidableEq, Repr

/-- Row of `stock_moves` (the ledger). -/
structure StockMove where
  item_id : Nat
  batch_id : Option Nat
  qty : ℚ
  reason : String
  ref : Option String
  created_at : String
  deriving DecidableEq, Repr

/-- Row of `bom`. -/
structure BomRow where
  id : Nat
  product_id : Nat
  item_id : Nat
  qty_per : ℚ
  deriving DecidableEq, Repr

/-- Row of `work_orders`; `status` is a `TEXT` column. -/
structure WorkOrder where
  id : Nat
  code : String
  product_id : Nat
  quantity : ℚ
  status : String
  planned_at : Option String
  completed_at : Option String
  created_at : String
  updated_at : String
  deriving DecidableEq, Repr

/-- The database: one list of rows per table, in insertion order. -/
structure Store where
  item_types : List ItemType
  items : List Item
  batches : List Batch
  stock_moves : List StockMove
  bom : List BomRow
  work_orders : List WorkOrder
  deriving DecidableEq, Repr

/-- What the handler needs from outside: the clock, the batch-code generator
and which write statements the store rejects. -/
structure Env where
  now : String
  batchCode : String
  fails : Nat → Bool

/-- The HTTP answer of a handler. -/
inductive Response where
  | receiveOk (batch_code : String) (new_avg_cost : ℚ)
  | moveOk
  | completeOk (completed_at : String)
  | error (status : Nat) (msg : String)
  | thrown
  deriving DecidableEq, Repr

/-! ## JavaScript helpers -/

/-- JavaScript `!x` for a string field: absent or empty. -/
def falsyStr : Option String → Bool
  | none => true
  | some x => x == ""

/-- JavaScript `!x` for a numeric field: absent or zero. -/
def falsyNum : Option ℚ → Bool
  | none => true
  | some x => x == 0

/-- JavaScript `x || null` for a string field. -/
def orNull : Option String → Option String
  | none => none
  | some x => if x == "" then none else some x

/-! ## Prepared statements (the helper object `q`) -/

/-- Statement `q.getItemBySku`: `SELECT * FROM items WHERE sku=?`. -/
def getItemBySku (s : Store) (sku : String) : Option Item :=
  s.items.find? (fun i => i.sku == sku)

/-- Statement `q.getItemById`: items joined with their type, `WHERE i.id=?`. -/
def getItemById (s : Store) (id : Nat) : Option Item :=
  match s.items.find? (fun i => i.id == id) with
  | none => none
  | some i => if s.item_types.any (fun t => t.id == i.type_id) then some i else none

/-- Statement `q.getOnHand`: `SELECT COALESCE(SUM(qty),0) FROM stock_moves WHERE item_id=?`. -/
def getOnHand (s : Store) (item_id : Nat) : ℚ :=
  ((s.stock_moves.filter (fun m => m.item_id == item_id)).map (fun m => m.qty)).sum

/-- Next `AUTOINCREMENT` key of `batches`. -/
def nextBatchId (s : Store) : Nat :=
  (s.batches.map (fun b => b.id)).foldl max 0 + 1

/-- Statement `q.insBatch.run`: rejected when the code is taken (`code TEXT UNIQUE`) or
when the store refuses the statement; otherwise the new store and
`lastInsertRowid`. -/
def insBatch (env : Env) (k : Nat) (s : Store) (code : String) (item_id : Nat)
    (supplier : Option String) (received_at : String) (expires_at : Option String)
    (qty unit_cost : ℚ) (created_at : String) : Option (Store × Nat) :=
  if env.fails k || s.batches.any (fun b => b.code == code) then none
  else
    let id := nextBatchId s
    some ({ s with batches := s.batches ++
              [{ id := id, code := code, item_id := item_id, supplier := supplier,
                 received_at := received_at, expires_at := expires_at, qty := qty,
                 unit_cost := unit_cost, created_at := created_at }] }, id)

/-- Statement `q.insMove.run`: append one row to the ledger. -/
def insMove (env : Env) (k : Nat) (s : Store) (item_id : Nat) (batch_id : Option Nat)
    (qty : ℚ) (reason : String) (ref : Option String) (created_at : String) : Option Store :=
  if env.fails k then none
  else some { s with stock_moves := s.stock_moves ++
                [{ item_id := item_id, batch_id := batch_id, qty := qty, reason := reason,
                   ref := ref, created_at := created_at }] }

/-- Statement `q.upItemAvgCost.run`: `UPDATE items SET avg_cost=?, updated_at=? WHERE id=?`. -/
def upItemAvgCost (env : Env) (k : Nat) (s : Store) (avg_cost : ℚ) (updated_at : String)
    (id : Nat) : Option Store :=
  if env.fails k then none
  else some { s with items := s.items.map (fun i =>
                if i.id == id then { i with avg_cost := avg_cost, updated_at := updated_at }
                else i) }

/-- Statement `q.getBomRows`: `SELECT * FROM bom WHERE product_id=?`.  The
statement has no `ORDER BY`; SQLite answers it through the index of
`UNIQUE(product_id, item_id)`, so the rows of the product come in ascending
`item_id` (rows of equal `item_id`, which the constraint excludes, would keep
their insertion order). -/
def getBomRows (s : Store) (product_id : Nat) : List BomRow :=
  (s.bom.filter (fun b => b.product_id == product_id)).insertionSort
    (fun a b => a.item_id ≤ b.item_id)

/-- The inline statement `SELECT * FROM work_orders WHERE code=?`. -/
def getWOByCode (s : Store) (code : String) : Option WorkOrder :=
  s.work_orders.find? (fun w => w.code == code)

/-- Statement `q.setWODone.run`:
`UPDATE work_orders SET status='DONE', completed_at=?, updated_at=? WHERE id=?`. -/
def setWODone (env : Env) (k : Nat) (s : Store) (completed_at updated_at : String)
    (id : Nat) : Option Store :=
  if env.fails k then none
  else some { s with work_orders := s.work_orders.map (fun w =>
                if w.id == id then
                  { w with status := "DONE", completed_at := some completed_at,
                           updated_at := updated_at }
                else w) }

/-! ## Route handlers -/

/-- Body of `POST /api/receive`. -/
structure ReceiveReq where
  sku : Option String
  qty : Option ℚ
  unit_cost : Option ℚ
  supplier : Option String
  expires_at : Option String

/-- Body of `POST /api/move`. -/
structure MoveReq where
  sku : Option String
  qty : Option ℚ
  reason : Option String
  ref : Option String

/-- The moving-average update of `POST /api/receive` (`denom` and `newAvg`). -/
def newAvg (avg_cost onhandOld qty unit_cost : ℚ) : ℚ :=
  let denom := onhandOld + qty
  if denom > 0 then ((avg_cost * onhandOld) + (qty * unit_cost)) / denom else unit_cost

/-- Handler of `POST /api/receive`: creates a batch and a `RECEIVE` move, then updates the
moving average. -/
def receive (env : Env) (req : ReceiveReq) (s : Store) : Store × Response :=
  if falsyStr req.sku || falsyNum req.qty || falsyNum req.unit_cost then
    (s, .error 400 "sku, qty, unit_cost required")
  else
    match req.sku, req.qty, req.unit_cost with
    | some sku, some qty, some unit_cost =>
      match getItemBySku s sku with
      | none => (s, .error 404 "item not found")
      | some item =>
        let t := env.now
        let code := env.batchCode
        match insBatch env 0 s code item.id (orNull req.supplier) t (orNull req.expires_at)
                qty unit_cost t with
        | none => (s, .thrown)
        | some (s1, batch_id) =>
          match insMove env 1 s1 item.id (some batch_id) |qty| "RECEIVE" (some code) t with
          | none => (s1, .thrown)
          | some s2 =>
            let onhandOld := getOnHand s2 item.id - qty
            let avg := newAvg item.avg_cost onhandOld qty unit_cost
            match upItemAvgCost env 2 s2 avg t item.id with
            | none => (s2, .thrown)
            | some s3 => (s3, .receiveOk code avg)
    | _, _, _ => (s, .error 400 "sku, qty, unit_cost required")

/-- The sign rule of `POST /api/move`. -/
def signedQty (reason : String) (qty : ℚ) : ℚ :=
  if reason == "ISSUE" || reason == "WO-ISSUE" || reason == "ADJUST-" then -|qty| else |qty|

/-- Handler of `POST /api/move`: one manual ledger entry. -/
def move (env : Env) (req : MoveReq) (s : Store) : Store × Response :=
  if falsyStr req.sku || falsyNum req.qty || falsyStr req.reason then
    (s, .error 400 "sku, qty, reason required")
  else
    match req.sku, req.qty, req.reason with
    | some sku, some qty, some reason =>
      match getItemBySku s sku with
      | none => (s, .error 404 "item not found")
      | some item =>
        let t := env.now
        match insMove env 0 s item.id none (signedQty reason qty) reason (orNull req.ref) t with
        | none => (s, .thrown)
        | some s1 => (s1, .moveOk)
    | _, _, _ => (s, .error 400 "sku, qty, reason required")

/-- The loop `for(const row of bomRows)` of the completion handler; `k` is the
number of write statements already issued.  `Except.error` carries the store
left behind when an iteration throws (`item.id` on a missing item, or a
rejected insert). -/
def issueComponents (env : Env) (wo : WorkOrder) (t : String) :
    List BomRow → Nat → Store → Except Store Store
  | [], _, s => .ok s
  | row :: rest, k, s =>
    match getItemById s row.item_id with
    | none => .error s
    | some item =>
      let needQty := row.qty_per * wo.quantity
      match insMove env k s item.id none (-|needQty|) "WO-ISSUE" (some wo.code) t with
      | none => .error s
      | some s1 => issueComponents env wo t rest (k + 1) s1

/-- Handler of `POST /api/workorders/:code/complete`: consumes the components
of the order per BOM line and marks the order done. -/
def completeWorkOrder (env : Env) (code : String) (s : Store) : Store × Response :=
  match getWOByCode s code with
  | none => (s, .error 404 "work order not found")
  | some wo =>
    if wo.status == "DONE" then (s, .error 400 "already done")
    else
      let bomRows := getBomRows s wo.product_id
      let t := env.now
      match issueComponents env wo t bomRows 0 s with
      | .error s1 => (s1, .thrown)
      | .ok s1 =>
        match setWODone env bomRows.length s1 t t wo.id with
        | none => (s1, .thrown)
        | some s2 => (s2, .completeOk t)

/-! ## Requests and runs -/

/-- One request to the ledger-affecting routes, with the environment it runs in. -/
inductive Op where
  | receive (env : Env) (req : ReceiveReq)
  | move (env : Env) (req : MoveReq)
  | complete (env : Env) (code : String)

/-- Serve one request: the store left behind and the answer. -/
def serve (s : Store) : Op → Store × Response
  | .receive env req => receive env req s
  | .move env req => move env req s
  | .complete env code => completeWorkOrder env code s

/-- The store after serving a sequence of requests one after the other. -/
def run : Store → List Op → Store
  | s, [] => s
  | s, op :: ops => run (serve s op).1 ops

/-- Sum of the quantities of the moves of one item (0 when it has none): the
on-hand quantity as the specification words it. -/
def ledgerSum : List StockMove → Nat → ℚ
  | [], _ => 0
  | m :: ms, id => (if m.item_id = id then m.qty else 0) + ledgerSum ms id

/-- The ledger row the completion handler writes for one BOM line. -/
def woIssue (wo : WorkOrder) (t : String) (row : BomRow) : StockMove :=
  { item_id := row.item_id, batch_id := none, qty := -|row.qty_per * wo.quantity|,
    reason := "WO-ISSUE", ref := some wo.code, created_at := t }

/-- What a receipt must find for the average to stay meaningful: a positive
quantity, a non-negative unit cost, and an on-hand quantity of its item that is
not negative unless the receipt leaves it at or below zero. -/
def receiptOk (s : Store) : Op → Prop
  | .receive _ req =>
    ∀ sku item qty c, req.sku = some sku → req.qty = some qty → req.unit_cost = some c →
      getItemBySku s sku = some item →
      0 < qty ∧ 0 ≤ c ∧ (0 ≤ getOnHand s item.id ∨ getOnHand s item.id + qty ≤ 0)
  | _ => True

/-- Every receipt of the run satisfies `receiptOk` in the store it meets. -/
def NoOverIssuedReceipt : Store → List Op → Prop
  | _, [] => True
  | s, op :: ops => receiptOk s op ∧ NoOverIssuedReceipt (serve s op).1 ops

/-! ## A small shop for worked examples -/

/-- An environment in which no statement is rejected. -/
def calm (now batchCode : String) : Env :=
  { now := now, batchCode := batchCode, fails := fun _ => false }

/-- An environment in which exactly the `k`-th write statement is rejected. -/
def failing (now batchCode : String) (k : Nat) : Env :=
  { now := now, batchCode := batchCode, fails := fun j => j == k }

/-- Component A of the example product. -/
def itemA : Item :=
  { id := 1, sku := "ALU-AAAAAA", name := "Profile-40x40 Anodized", type_id := 1, unit := "m",
    avg_cost := 0, created_at := "t0", updated_at := "t0" }

/-- Component B of the example product. -/
def itemB : Item :=
  { id := 2, sku := "HDW-BBBBBB", name := "Corner Bracket L-50", type_id := 2, unit := "pcs",
    avg_cost := 0, created_at := "t0", updated_at := "t0" }

/-- The example work order: 3 units of product 1. -/
def orderW : WorkOrder :=
  { id := 1, code := "WO-AAAAAA", product_id := 1, quantity := 3, status := "OPEN",
    planned_at := none, completed_at := none, created_at := "t0", updated_at := "t0" }

/-- A fresh shop: two items at average cost 0, an empty ledger, product 1 with
the BOM A: 6 per unit, B: 8 per unit (line B entered first), product 2 with the
BOM A: 1 per unit, and one open work order for 3 units of product 1. -/
def shop : Store :=
  { item_types := [⟨1, "ALU", "Aluminum Profiles"⟩, ⟨2, "HDW", "Hardware"⟩],
    items := [itemA, itemB],
    batches := [],
    stock_moves := [],
    bom := [⟨1, 1, 2, 8⟩, ⟨2, 2, 1, 1⟩, ⟨3, 1, 1, 6⟩],
    work_orders := [orderW] }

/-- The same shop with the work order canceled. -/
def shopCanceled : Store :=
  { shop with work_orders := [{ orderW with status := "CANCELED" }] }

/-- The same shop with the work order already done. -/
def shopDone : Store :=
  { shop with work_orders := [{ orderW with status := "DONE", completed_at := some "t1" }] }

/-- Receipt of `qty` units of item A at `unit_cost`. -/
def recvA (qty unit_cost : ℚ) : ReceiveReq :=
  { sku := some "ALU-AAAAAA", qty := some qty, unit_cost := some unit_cost, supplier := none,
    expires_at := none }

/-- Manual move of `qty` units of item A. -/
def moveA (qty : ℚ) (reason : String) : MoveReq :=
  { sku := some "ALU-AAAAAA", qty := some qty, reason := some reason, ref := none }

/-- Item A holds one unit less than nothing at average cost 2: received 10 at
2.00, then issued 11. -/
def shopOverIssued : Store :=
  { shop with
      items := [{ itemA with avg_cost := 2, updated_at := "t1" }, itemB],
      batches := [{ id := 1, code := "BTCH-AAAAAAAA", item_id := 1, supplier := none,
                    received_at := "t1", expires_at := none, qty := 10, unit_cost := 2,
                    created_at := "t1" }],
      stock_moves := [{ item_id := 1, batch_id := some 1, qty := 10, reason := "RECEIVE",
                        ref := some "BTCH-AAAAAAAA", created_at := "t1" },
                      { item_id := 1, batch_id := none, qty := -11, reason := "ISSUE",
                        ref := none, created_at := "t2" }] }

/-- Item A holds ten units less than nothing at average cost 2: received 10 at
2.00, then issued 20. -/
def shopDeepOverIssued : Store :=
  { shopOverIssued with
      stock_moves := [{ item_id := 1, batch_id := some 1, qty := 10, reason := "RECEIVE",
                        ref := some "BTCH-AAAAAAAA", created_at := "t1" },
                      { item_id := 1, batch_id := none, qty := -20, reason := "ISSUE",
                        ref := none, created_at := "t2" }] }

/-! ## Helper lemmas -/

theorem getOnHand_eq_ledgerSum (s : Store) (id : Nat) :
    getOnHand s id = ledgerSum s.stock_moves id := by
  unfold getOnHand
  induction s.stock_moves with
  | nil => simp [ledgerSum]
  | cons m ms ih =>
    by_cases h : m.item_id = id
    · simp [List.filter_cons, h, ledgerSum, ih]
    · simp [List.filter_cons, h, ledgerSum, ih]

theorem ledgerSum_append (l₁ l₂ : List StockMove) (id : Nat) :
    ledgerSum (l₁ ++ l₂) id = ledgerSum l₁ id + ledgerSum l₂ id := by
  induction l₁ with
  | nil => simp [ledgerSum]
  | cons m ms ih => simp [ledgerSum, ih, add_assoc]

/-- The store and answer of an accepted receipt, written out. -/
theorem receive_accepted (env : Env) (req : ReceiveReq) (s : Store) (sku : String)
    (item : Item) (qty c : ℚ) (hsku : req.sku = some sku) (hqty : req.qty = some qty)
    (hc : req.unit_cost = some c) (hitem : getItemBySku s sku = some item)
    (hs : sku ≠ "") (hq : qty ≠ 0) (hc0 : c ≠ 0)
    (hf0 : env.fails 0 = false) (hf1 : env.fails 1 = false) (hf2 : env.fails 2 = false)
    (hfresh : s.batches.any (fun b => b.code == env.batchCode) = false) :
    receive env req s =
      ({ s with
          batches := s.batches ++
            [{ id := nextBatchId s, code := env.batchCode, item_id := item.id,
               supplier := orNull req.supplier, received_at := env.now,
               expires_at := orNull req.expires_at, qty := qty, unit_cost := c,
               created_at := env.now }],
          stock_moves := s.stock_moves ++
            [{ item_id := item.id, batch_id := some (nextBatchId s), qty := |qty|,
               reason := "RECEIVE", ref := some env.batchCode, created_at := env.now }],
          items := s.items.map (fun i =>
            if i.id == item.id then
              { i with avg_cost := newAvg item.avg_cost (getOnHand s item.id + |qty| - qty) qty c,
                       updated_at := env.now }
            else i) },
       .receiveOk env.batchCode
          (newAvg item.avg_cost (getOnHand s item.id + |qty| - qty) qty c)) := by
  have hoh : ∀ (bs : List Batch) (m : StockMove), m.item_id = item.id →
      getOnHand { s with batches := bs, stock_moves := s.stock_moves ++ [m] } item.id
        = getOnHand s item.id + m.qty := by
    intro bs m hm
    rw [getOnHand_eq_ledgerSum, getOnHand_eq_ledgerSum]
    simp [ledgerSum_append, ledgerSum, hm]
  simp [receive, falsyStr, falsyNum, hsku, hqty, hc, hitem, hs, hq, hc0, insBatch, insMove,
    upItemAvgCost, hf0, hf1, hf2, hfresh, hoh]

/-- An accepted receipt had all its fields present and non-zero, found its item,
drew a fresh batch code and had no statement rejected. -/
theorem receive_accepted_inv (env : Env) (req : ReceiveReq) (s : Store) (code : String)
    (avg : ℚ) (h : (receive env req s).2 = .receiveOk code avg) :
    ∃ sku item qty c, req.sku = some sku ∧ req.qty = some qty ∧ req.unit_cost = some c ∧
      getItemBySku s sku = some item ∧ sku ≠ "" ∧ qty ≠ 0 ∧ c ≠ 0 ∧
      env.fails 0 = false ∧ env.fails 1 = false ∧ env.fails 2 = false ∧
      s.batches.any (fun b => b.code == env.batchCode) = false := by
  unfold receive at h
  split at h
  · simp at h
  · rename_i hfalsy
    split at h
    · rename_i sku qty c hsku hqty hc
      split at h
      · simp at h
      · rename_i item hitem
        simp only [hsku, hqty, hc, falsyStr, falsyNum, Bool.or_eq_true, beq_iff_eq,
          not_or] at hfalsy
        obtain ⟨⟨hs, hq⟩, hc0⟩ := hfalsy
        by_cases hb : (env.fails 0 || s.batches.any (fun b => b.code == env.batchCode)) = true
        · simp [insBatch, hb] at h
        · simp only [Bool.or_eq_true, not_or, Bool.not_eq_true] at hb
          by_cases hf1 : env.fails 1 = true
          · simp [insBatch, hb.1, hb.2, insMove, hf1] at h
          · by_cases hf2 : env.fails 2 = true
            · simp [insBatch, hb.1, hb.2, insMove, hf1, upItemAvgCost, hf2] at h
            · simp only [Bool.not_eq_true] at hf1 hf2
              exact ⟨sku, item, qty, c, hsku, hqty, hc, hitem, hs, hq, hc0, hb.1, hf1, hf2, hb.2⟩
    · simp at h

/-- Whatever happens, `POST /api/receive` only appends to the ledger. -/
theorem receive_appends (env : Env) (req : ReceiveReq) (s : Store) :
    ∃ app, (receive env req s).1.stock_moves = s.stock_moves ++ app := by
  unfold receive
  split
  · exact ⟨[], by simp⟩
  · split
    · split
      · exact ⟨[], by simp⟩
      · by_cases hb : (env.fails 0 || s.batches.any (fun b => b.code == env.batchCode)) = true
        · exact ⟨[], by simp [insBatch, hb]⟩
        · simp only [Bool.or_eq_true, not_or, Bool.not_eq_true] at hb
          by_cases hf1 : env.fails 1 = true
          · exact ⟨[], by simp [insBatch, hb.1, hb.2, insMove, hf1]⟩
          · by_cases hf2 : env.fails 2 = true
            · exact ⟨_, by simp [insBatch, hb.1, hb.2, insMove, hf1, upItemAvgCost, hf2]; rfl⟩
            · exact ⟨_, by simp [insBatch, hb.1, hb.2, insMove, hf1, upItemAvgCost, hf2]; rfl⟩
    · exact ⟨[], by simp⟩

/-- The store and answer of an accepted manual move, written out. -/
theorem move_accepted (env : Env) (req : MoveReq) (s : Store) (sku : String) (item : Item)
    (qty : ℚ) (reason : String) (hsku : req.sku = some sku) (hqty : req.qty = some qty)
    (hreason : req.reason = some reason) (hitem : getItemBySku s sku = some item)
    (hs : sku ≠ "") (hq : qty ≠ 0) (hr : reason ≠ "") (hf0 : env.fails 0 = false) :
    move env req s =
      ({ s with stock_moves := s.stock_moves ++
          [{ item_id := item.id, batch_id := none, qty := signedQty reason qty,
             reason := reason, ref := orNull req.ref, created_at := env.now }] },
       .moveOk) := by
  simp [move, falsyStr, falsyNum, hsku, hqty, hreason, hitem, hs, hq, hr, insMove, hf0]

/-- Whatever happens, `POST /api/move` only appends to the ledger and leaves
the items alone. -/
theorem move_appends (env : Env) (req : MoveReq) (s : Store) :
    ∃ app, (move env req s).1 = { s with stock_moves := s.stock_moves ++ app } := by
  unfold move
  split
  · exact ⟨[], by simp⟩
  · split
    · split
      · exact ⟨[], by simp⟩
      · by_cases hf : env.fails 0 = true
        · exact ⟨[], by simp [insMove, hf]⟩
        · exact ⟨_, by simp [insMove, hf]; rfl⟩
    · exact ⟨[], by simp⟩

/-- A row found by `q.getItemById` carries the requested id. -/
theorem getItemById_id (s : Store) (id : Nat) (item : Item)
    (h : getItemById s id = some item) : item.id = id := by
  unfold getItemById at h
  split at h
  · simp at h
  · rename_i i hi
    split at h
    · simp only [Option.some.injEq] at h
      subst h
      simpa using List.find?_some hi
    · simp at h

/-- Ledger inserts do not change what `q.getItemById` finds. -/
theorem getItemById_moves (s : Store) (l : List StockMove) (id : Nat) :
    getItemById { s with stock_moves := l } id = getItemById s id := rfl

/-- The component loop runs to its end when every line has its item and no
insert is rejected: one `WO-ISSUE` row per line, in order. -/
theorem issueComponents_ok (env : Env) (wo : WorkOrder) (t : String) (rows : List BomRow) :
    ∀ (k : Nat) (s : Store),
      (∀ row ∈ rows, (getItemById s row.item_id).isSome) →
      (∀ j, j < rows.length → env.fails (k + j) = false) →
      issueComponents env wo t rows k s =
        .ok { s with stock_moves := s.stock_moves ++ rows.map (woIssue wo t) } := by
  induction rows with
  | nil => intro k s _ _; simp [issueComponents]
  | cons row rest ih =>
    intro k s hitems hok
    have hrow := hitems row (List.mem_cons_self _ _)
    obtain ⟨item, hitem⟩ := Option.isSome_iff_exists.mp hrow
    have hid := getItemById_id s row.item_id item hitem
    have h0 : env.fails k = false := by simpa using hok 0 (by simp)
    have hrest : ∀ r ∈ rest, (getItemById
        { s with stock_moves := s.stock_moves ++ [woIssue wo t row] } r.item_id).isSome := by
      intro r hr
      rw [getItemById_moves]
      exact hitems r (List.mem_cons_of_mem _ hr)
    have hok2 : ∀ j, j < rest.length → env.fails (k + 1 + j) = false := by
      intro j hj
      have := hok (j + 1) (by simpa using hj)
      rwa [show k + (j + 1) = k + 1 + j by omega] at this
    have := ih (k + 1) _ hrest hok2
    simp only [issueComponents, hitem, insMove, h0, hid]
    simpa [woIssue, List.append_assoc] using this

/-- The component loop stops at the first rejected insert and leaves behind
the rows written before it. -/
theorem issueComponents_fail (env : Env) (wo : WorkOrder) (t : String) (rows : List BomRow) :
    ∀ (k n : Nat) (s : Store),
      (∀ row ∈ rows, (getItemById s row.item_id).isSome) →
      n < rows.length → env.fails (k + n) = true →
      (∀ j, j < n → env.fails (k + j) = false) →
      issueComponents env wo t rows k s =
        .error { s with stock_moves := s.stock_moves ++ (rows.take n).map (woIssue wo t) } := by
  induction rows with
  | nil => intro k n s _ hn; simp at hn
  | cons row rest ih =>
    intro k n s hitems hn hfail hok
    have hrow := hitems row (List.mem_cons_self _ _)
    obtain ⟨item, hitem⟩ := Option.isSome_iff_exists.mp hrow
    have hid := getItemById_id s row.item_id item hitem
    cases n with
    | zero =>
      have h0 : env.fails k = true := by simpa using hfail
      simp [issueComponents, hitem, insMove, h0]
    | succ m =>
      have h0 : env.fails k = false := by simpa using hok 0 (by simp)
      have hrest : ∀ r ∈ rest, (getItemById
          { s with stock_moves := s.stock_moves ++ [woIssue wo t row] } r.item_id).isSome := by
        intro r hr
        rw [getItemById_moves]
        exact hitems r (List.mem_cons_of_mem _ hr)
      have hm : m < rest.length := by simpa using hn
      have hfail2 : env.fails (k + 1 + m) = true := by
        rwa [show k + (m + 1) = k + 1 + m by omega] at hfail
      have hok2 : ∀ j, j < m → env.fails (k + 1 + j) = false := by
        intro j hj
        have := hok (j + 1) (by omega)
        rwa [show k + (j + 1) = k + 1 + j by omega] at this
      have := ih (k + 1) m _ hrest hm hfail2 hok2
      simp only [issueComponents, hitem, insMove, h0, hid]
      simpa [woIssue, List.append_assoc] using this

/-- However the component loop ends, it only appended to the ledger. -/
theorem issueComponents_appends (env : Env) (wo : WorkOrder) (t : String)
    (rows : List BomRow) :
    ∀ (k : Nat) (s : Store),
      ∃ app, (match issueComponents env wo t rows k s with
              | .ok s1 => s1
              | .error s1 => s1) = { s with stock_moves := s.stock_moves ++ app } := by
  induction rows with
  | nil => intro k s; exact ⟨[], by simp [issueComponents]⟩
  | cons row rest ih =>
    intro k s
    cases hitem : getItemById s row.item_id with
    | none => exact ⟨[], by simp [issueComponents, hitem]⟩
    | some item =>
      by_cases hf : env.fails k = true
      · exact ⟨[], by simp [issueComponents, hitem, insMove, hf]⟩
      · obtain ⟨app, happ⟩ := ih (k + 1)
          { s with stock_moves := s.stock_moves ++
              [{ item_id := item.id, batch_id := none, qty := -|row.qty_per * wo.quantity|,
                 reason := "WO-ISSUE", ref := some wo.code, created_at := t }] }
        refine ⟨{ item_id := item.id, batch_id := none, qty := -|row.qty_per * wo.quantity|,
                  reason := "WO-ISSUE", ref := some wo.code, created_at := t } :: app, ?_⟩
        simp only [issueComponents, hitem, insMove, hf]
        simpa [List.append_assoc] using happ

/-- After `q.setWODone` on the order found by `code`, looking `code` up again
finds that order, now `DONE`. -/
theorem getWOByCode_after_done (s : Store) (code : String) (wo : WorkOrder) (t : String)
    (l : List StockMove) (h : getWOByCode s code = some wo) :
    getWOByCode
      { s with stock_moves := l,
               work_orders := s.work_orders.map (fun w =>
                 if w.id == wo.id then
                   { w with status := "DONE", completed_at := some t, updated_at := t }
                 else w) } code
      = some { wo with status := "DONE", completed_at := some t, updated_at := t } := by
  unfold getWOByCode at h ⊢
  simp only [List.find?_map]
  have hp : ((fun w : WorkOrder => w.code == code) ∘ fun w : WorkOrder =>
      if w.id == wo.id then
        { w with status := "DONE", completed_at := some t, updated_at := t }
      else w) = fun w : WorkOrder => w.code == code := by
    funext w
    by_cases hw : w.id = wo.id <;> simp [hw]
  rw [hp, h]
  simp

/-- The store and answer of a completion that runs to its end, written out. -/
theorem completeWorkOrder_ok (env : Env) (code : String) (s : Store) (wo : WorkOrder)
    (hwo : getWOByCode s code = some wo) (hst : wo.status ≠ "DONE")
    (hitems : ∀ row ∈ getBomRows s wo.product_id, (getItemById s row.item_id).isSome)
    (hok : ∀ j, j ≤ (getBomRows s wo.product_id).length → env.fails j = false) :
    completeWorkOrder env code s =
      ({ s with
          stock_moves := s.stock_moves ++ (getBomRows s wo.product_id).map (woIssue wo env.now),
          work_orders := s.work_orders.map (fun w =>
            if w.id == wo.id then
              { w with status := "DONE", completed_at := some env.now, updated_at := env.now }
            else w) },
       .completeOk env.now) := by
  have hloop := issueComponents_ok env wo env.now (getBomRows s wo.product_id) 0 s hitems
    (by intro j hj; simpa using hok j (le_of_lt hj))
  have hlast := hok _ (le_refl _)
  simp [completeWorkOrder, hwo, hst, hloop, setWODone, hlast]

/-- The store and answer of a completion whose `k`-th write is the first one
rejected, written out. -/
theorem completeWorkOrder_fail (env : Env) (code : String) (s : Store) (wo : WorkOrder)
    (k : Nat) (hwo : getWOByCode s code = some wo) (hst : wo.status ≠ "DONE")
    (hitems : ∀ row ∈ getBomRows s wo.product_id, (getItemById s row.item_id).isSome)
    (hk : k ≤ (getBomRows s wo.product_id).length) (hfail : env.fails k = true)
    (hbefore : ∀ j, j < k → env.fails j = false) :
    completeWorkOrder env code s =
      ({ s with stock_moves := s.stock_moves ++
          ((getBomRows s wo.product_id).take k).map (woIssue wo env.now) },
       .thrown) := by
  rcases Nat.lt_or_eq_of_le hk with hlt | heq
  · have hloop := issueComponents_fail env wo env.now (getBomRows s wo.product_id) 0 k s hitems
      hlt (by simpa using hfail) (by intro j hj; simpa using hbefore j hj)
    simp [completeWorkOrder, hwo, hst, hloop]
  · have hloop := issueComponents_ok env wo env.now (getBomRows s wo.product_id) 0 s hitems
      (by intro j hj; simpa using hbefore j (by omega))
    have hlast : env.fails (getBomRows s wo.product_id).length = true := by rw [← heq]; exact hfail
    simp [completeWorkOrder, hwo, hst, hloop, setWODone, hlast, heq]

/-- Whatever happens, the completion handler only appends to the ledger and
leaves the items alone. -/
theorem completeWorkOrder_appends (env : Env) (code : String) (s : Store) :
    ∃ app, (completeWorkOrder env code s).1.stock_moves = s.stock_moves ++ app ∧
      (completeWorkOrder env code s).1.items = s.items := by
  unfold completeWorkOrder
  split
  · exact ⟨[], by simp⟩
  · rename_i wo hwo
    split
    · exact ⟨[], by simp⟩
    · obtain ⟨app, happ⟩ :=
        issueComponents_appends env wo env.now (getBomRows s wo.product_id) 0 s
      cases hs1 : issueComponents env wo env.now (getBomRows s wo.product_id) 0 s with
      | error s1 =>
        rw [hs1] at happ
        simp only at happ
        subst happ
        exact ⟨app, by simp [hs1]⟩
      | ok s1 =>
        rw [hs1] at happ
        simp only at happ
        subst happ
        by_cases hf : env.fails (getBomRows s wo.product_id).length = true
        · exact ⟨app, by simp [hs1, setWODone, hf]⟩
        · exact ⟨app, by simp [hs1, setWODone, hf]⟩

/-- A completion that answered with success found its order, appended to the
ledger and marked that order `DONE`. -/
theorem completeWorkOrder_ok_inv (env : Env) (code : String) (s : Store) (t : String)
    (h : (completeWorkOrder env code s).2 = .completeOk t) :
    ∃ wo app, getWOByCode s code = some wo ∧
      (completeWorkOrder env code s).1 =
        { s with
            stock_moves := s.stock_moves ++ app,
            work_orders := s.work_orders.map (fun w =>
              if w.id == wo.id then
                { w with status := "DONE", completed_at := some env.now,
                         updated_at := env.now }
              else w) } := by
  unfold completeWorkOrder at h ⊢
  split at h
  · simp at h
  · rename_i wo hwo
    split at h
    · simp at h
    · rename_i hst
      obtain ⟨app, happ⟩ :=
        issueComponents_appends env wo env.now (getBomRows s wo.product_id) 0 s
      cases hs1 : issueComponents env wo env.now (getBomRows s wo.product_id) 0 s with
      | error s1 => simp [hs1] at h
      | ok s1 =>
        rw [hs1] at happ
        simp only at happ
        subst happ
        by_cases hf : env.fails (getBomRows s wo.product_id).length = true
        · simp [hs1, setWODone, hf] at h
        · refine ⟨wo, app, hwo, ?_⟩
          simp [hwo, hst, hs1, setWODone, hf]

/-- After `q.upItemAvgCost` on the item found by `sku`, looking `sku` up again
finds that item with the new average. -/
theorem getItemBySku_after_update (s : Store) (sku : String) (item : Item) (avg : ℚ)
    (t : String) (bs : List Batch) (ms : List StockMove)
    (h : getItemBySku s sku = some item) :
    getItemBySku
      { s with batches := bs, stock_moves := ms,
               items := s.items.map (fun i =>
                 if i.id == item.id then { i with avg_cost := avg, updated_at := t } else i) }
      sku
      = some { item with avg_cost := avg, updated_at := t } := by
  unfold getItemBySku at h ⊢
  simp only [List.find?_map]
  have hp : ((fun i : Item => i.sku == sku) ∘ fun i : Item =>
      if i.id == item.id then { i with avg_cost := avg, updated_at := t } else i)
      = fun i : Item => i.sku == sku := by
    funext i
    by_cases hi : i.id = item.id <;> simp [hi]
  rw [hp, h]
  simp

/-- An accepted receipt of a positive quantity, written out; in the exact
arithmetic of the model the `onhandOld` of the handler is the ledger sum
before the receipt. -/
theorem receive_positive (env : Env) (req : ReceiveReq) (s : Store) (sku : String)
    (item : Item) (qty c : ℚ) (hsku : req.sku = some sku)
    (hitem : getItemBySku s sku = some item) (hqty : req.qty = some qty)
    (hc : req.unit_cost = some c) (hpos : 0 < qty)
    (hacc : ∃ code avg, (receive env req s).2 = .receiveOk code avg) :
    receive env req s =
      ({ s with
          batches := s.batches ++
            [{ id := nextBatchId s, code := env.batchCode, item_id := item.id,
               supplier := orNull req.supplier, received_at := env.now,
               expires_at := orNull req.expires_at, qty := qty, unit_cost := c,
               created_at := env.now }],
          stock_moves := s.stock_moves ++
            [{ item_id := item.id, batch_id := some (nextBatchId s), qty := qty,
               reason := "RECEIVE", ref := some env.batchCode, created_at := env.now }],
          items := s.items.map (fun i =>
            if i.id == item.id then
              { i with avg_cost := newAvg item.avg_cost (getOnHand s item.id) qty c,
                       updated_at := env.now }
            else i) },
       .receiveOk env.batchCode (newAvg item.avg_cost (getOnHand s item.id) qty c)) := by
  obtain ⟨code, avg, hresp⟩ := hacc
  obtain ⟨sku2, item2, qty2, c2, h1, h2, h3, h4, hs, hq, hc0, hf0, hf1, hf2, hfresh⟩ :=
    receive_accepted_inv env req s code avg hresp
  rw [hsku] at h1
  rw [hqty] at h2
  rw [hc] at h3
  simp only [Option.some.injEq] at h1 h2 h3
  subst h1 h2 h3
  have h := receive_accepted env req s sku item qty c hsku hqty hc hitem hs hq hc0 hf0 hf1 hf2
    hfresh
  rw [h]
  simp [abs_of_pos hpos]

/-- A ledger without moves of an item sums to 0 for that item. -/
theorem ledgerSum_eq_zero (l : List StockMove) (id : Nat) (h : ∀ m ∈ l, m.item_id ≠ id) :
    ledgerSum l id = 0 := by
  induction l with
  | nil => rfl
  | cons m ms ih =>
    have hm : m.item_id ≠ id := h m (List.mem_cons_self _ _)
    have hms : ∀ x ∈ ms, x.item_id ≠ id := fun x hx => h x (List.mem_cons_of_mem _ hx)
    simp [ledgerSum, hm, ih hms]

/-- The moving average of non-negative costs is non-negative as long as the
prior on-hand is not a negative quantity that the receipt brings above zero. -/
theorem newAvg_nonneg (a h qty c : ℚ) (ha : 0 ≤ a) (hq : 0 < qty) (hc : 0 ≤ c)
    (hh : 0 ≤ h ∨ h + qty ≤ 0) : 0 ≤ newAvg a h qty c := by
  unfold newAvg
  by_cases hd : h + qty > 0
  · simp only [hd, if_true]
    rcases hh with h0 | hneg
    · exact div_nonneg (add_nonneg (mul_nonneg ha h0) (mul_nonneg (le_of_lt hq) hc))
        (le_of_lt hd)
    · exact absurd hd (not_lt.mpr hneg)
  · simpa [hd] using hc

/-- What `POST /api/receive` does to the items: nothing, or one average
update computed from the item found by sku. -/
theorem receive_items (env : Env) (req : ReceiveReq) (s : Store) :
    (receive env req s).1.items = s.items ∨
    ∃ sku item qty c, req.sku = some sku ∧ req.qty = some qty ∧ req.unit_cost = some c ∧
      getItemBySku s sku = some item ∧
      (receive env req s).1.items = s.items.map (fun i =>
        if i.id == item.id then
          { i with avg_cost := newAvg item.avg_cost (getOnHand s item.id + |qty| - qty) qty c,
                   updated_at := env.now }
        else i) := by
  by_cases hacc : ∃ code avg, (receive env req s).2 = .receiveOk code avg
  · obtain ⟨code, avg, hresp⟩ := hacc
    obtain ⟨sku, item, qty, c, h1, h2, h3, h4, hs, hq, hc0, hf0, hf1, hf2, hfresh⟩ :=
      receive_accepted_inv env req s code avg hresp
    right
    refine ⟨sku, item, qty, c, h1, h2, h3, h4, ?_⟩
    rw [receive_accepted env req s sku item qty c h1 h2 h3 h4 hs hq hc0 hf0 hf1 hf2 hfresh]
  · left
    unfold receive
    split
    · rfl
    · split
      · split
        · rfl
        · by_cases hb : (env.fails 0 || s.batches.any (fun b => b.code == env.batchCode)) = true
          · simp [insBatch, hb]
          · simp only [Bool.or_eq_true, not_or, Bool.not_eq_true] at hb
            by_cases hf1 : env.fails 1 = true
            · simp [insBatch, hb.1, hb.2, insMove, hf1]
            · by_cases hf2 : env.fails 2 = true
              · simp [insBatch, hb.1, hb.2, insMove, hf1, upItemAvgCost, hf2]
              · rename_i hfalsy _ _ _ sku qty c hsku hqty hc _ item hitem
                simp only [hsku, hqty, hc, falsyStr, falsyNum, Bool.or_eq_true, beq_iff_eq,
                  not_or] at hfalsy
                simp only [Bool.not_eq_true] at hf1 hf2
                exact absurd ⟨_, _, by
                  rw [receive_accepted env req s sku item qty c hsku hqty hc hitem hfalsy.1.1
                    hfalsy.1.2 hfalsy.2 hb.1 hf1 hf2 hb.2]⟩ hacc
      · rfl

/-- Serving one request in which a receipt, if any, satisfies `receiptOk`
keeps every average non-negative. -/
theorem serve_avg_nonneg (s : Store) (op : Op) (hinv : ∀ i ∈ s.items, 0 ≤ i.avg_cost)
    (hop : receiptOk s op) : ∀ i ∈ (serve s op).1.items, 0 ≤ i.avg_cost := by
  cases op with
  | move env req =>
    obtain ⟨app, happ⟩ := move_appends env req s
    simp only [serve, happ]
    exact hinv
  | complete env code =>
    obtain ⟨app, _, hitems⟩ := completeWorkOrder_appends env code s
    simp only [serve, hitems]
    exact hinv
  | receive env req =>
    simp only [serve]
    rcases receive_items env req s with hsame | ⟨sku, item, qty, c, h1, h2, h3, h4, hmap⟩
    · rw [hsame]
      exact hinv
    · obtain ⟨hq, hc, hh⟩ := hop sku item qty c h1 h2 h3 h4
      have hmem : item ∈ s.items := List.mem_of_find?_eq_some h4
      rw [hmap]
      intro i hi
      obtain ⟨j, hj, rfl⟩ := List.mem_map.mp hi
      by_cases hid : j.id = item.id
      · simp only [hid, beq_self_eq_true, if_true]
        rw [abs_of_pos hq, add_sub_cancel_right]
        exact newAvg_nonneg _ _ _ _ (hinv item hmem) hq hc hh
      · simpa [hid] using hinv j hj

/-- Non-negative averages survive every run whose receipts satisfy `receiptOk`. -/
theorem run_avg_nonneg (ops : List Op) :
    ∀ s : Store, (∀ i ∈ s.items, 0 ≤ i.avg_cost) → NoOverIssuedReceipt s ops →
      ∀ i ∈ (run s ops).items, 0 ≤ i.avg_cost := by
  induction ops with
  | nil => intro s hinv _; exact hinv
  | cons op rest ih =>
    intro s hinv hsafe
    exact ih _ (serve_avg_nonneg s op hinv hsafe.1) hsafe.2

/-- With distinct codes, the order carrying a code is the one the lookup by
that code finds. -/
theorem find_code_of_mem (l : List WorkOrder) (code : String) (wo : WorkOrder)
    (hmem : wo ∈ l) (hcode : wo.code = code)
    (huniq : l.Pairwise (fun a b => a.code ≠ b.code)) :
    l.find? (fun w => w.code == code) = some wo := by
  induction l with
  | nil => simp at hmem
  | cons a l ih =>
    rw [List.pairwise_cons] at huniq
    rcases List.mem_cons.mp hmem with heq | hin
    · subst heq
      simp [List.find?_cons, hcode]
    · have hne : a.code ≠ code := by rw [← hcode]; exact huniq.1 wo hin
      simp [List.find?_cons, hne, ih hin huniq.2]

/-- With distinct codes, two orders of one list with the same code are the same
order. -/
theorem eq_of_code_eq (l : List WorkOrder) (a b : WorkOrder) (ha : a ∈ l) (hb : b ∈ l)
    (hab : a.code = b.code) (huniq : l.Pairwise (fun a b => a.code ≠ b.code)) : a = b := by
  by_contra hne
  exact huniq.forall (fun _ _ h => Ne.symm h) ha hb hne hab

/-- An item that is in `items`, every item having its type, is found by
`q.getItemById`. -/
theorem getItemById_isSome_of_mem (s : Store) (id : Nat)
    (hex : ∃ i ∈ s.items, i.id = id)
    (htypes : ∀ i ∈ s.items, ∃ t ∈ s.item_types, t.id = i.type_id) :
    (getItemById s id).isSome := by
  unfold getItemById
  cases hfind : s.items.find? (fun i => i.id == id) with
  | none =>
    obtain ⟨i, hi, hid⟩ := hex
    have := List.find?_eq_none.mp hfind i hi
    simp [hid] at this
  | some i =>
    obtain ⟨t, ht, htid⟩ := htypes i (List.mem_of_find?_eq_some hfind)
    have hany : s.item_types.any (fun t => t.id == i.type_id) = true :=
      List.any_eq_true.mpr ⟨t, ht, by simp [htid]⟩
    simp [hany]

/-- The rows `q.getBomRows` returns are the BOM lines of the product. -/
theorem getBomRows_perm (s : Store) (pid : Nat) :
    (getBomRows s pid).Perm (s.bom.filter (fun l => decide (l.product_id = pid))) := by
  unfold getBomRows
  have hfilter : s.bom.filter (fun b => b.product_id == pid)
      = s.bom.filter (fun l => decide (l.product_id = pid)) := by
    congr 1
  rw [hfilter]
  exact List.perm_insertionSort _ _

/-- The rows `q.getBomRows` returns come in ascending `item_id`. -/
theorem getBomRows_sorted (s : Store) (pid : Nat) :
    (getBomRows s pid).Sorted (fun a b => a.item_id ≤ b.item_id) := by
  haveI : IsTotal BomRow (fun a b => a.item_id ≤ b.item_id) :=
    ⟨fun a b => Nat.le_total a.item_id b.item_id⟩
  haveI : IsTrans BomRow (fun a b => a.item_id ≤ b.item_id) :=
    ⟨fun _ _ _ h1 h2 => Nat.le_trans h1 h2⟩
  exact List.sorted_insertionSort _ _

/-- Every row `q.getBomRows` returns finds its item when every BOM line of the
product refers to an item and every item has its type. -/
theorem getBomRows_items (s : Store) (pid : Nat)
    (htypes : ∀ i ∈ s.items, ∃ t ∈ s.item_types, t.id = i.type_id)
    (hitems : ∀ l ∈ s.bom, l.product_id = pid → ∃ i ∈ s.items, i.id = l.item_id) :
    ∀ row ∈ getBomRows s pid, (getItemById s row.item_id).isSome := by
  intro row hrow
  have hmem := (getBomRows_perm s pid).mem_iff.mp hrow
  simp only [List.mem_filter, decide_eq_true_eq] at hmem
  exact getItemById_isSome_of_mem s row.item_id (hitems row hmem.1 hmem.2) htypes

/-- After `q.setWODone` on an order whose code is unique, the orders carrying
that code are exactly that order, now `DONE`. -/
theorem orders_after_done (l : List WorkOrder) (code t : String) (wo : WorkOrder)
    (hmem : wo ∈ l) (hcode : wo.code = code)
    (huniq : l.Pairwise (fun a b => a.code ≠ b.code)) :
    { wo with status := "DONE", completed_at := some t, updated_at := t } ∈
      l.map (fun w => if w.id = wo.id then
        { w with status := "DONE", completed_at := some t, updated_at := t } else w) ∧
    ∀ w ∈ l.map (fun w => if w.id = wo.id then
        { w with status := "DONE", completed_at := some t, updated_at := t } else w),
      w.code = code →
        w = { wo with status := "DONE", completed_at := some t, updated_at := t } := by
  constructor
  · exact List.mem_map.mpr ⟨wo, hmem, by simp⟩
  · intro w hw hwcode
    obtain ⟨w0, hw0, rfl⟩ := List.mem_map.mp hw
    have hc0 : w0.code = wo.code := by
      by_cases hid : w0.id = wo.id
      · simpa [hid, hcode] using hwcode
      · simpa [hid, hcode] using hwcode
    have := eq_of_code_eq l w0 wo hw0 hmem hc0 huniq
    subst this
    simp

/-! ## Work-order completion -/

/-- C2. Let `wo` be the work order of code `code` (codes being unique), its
status OPEN, every BOM line of its product referring to an existing item (every
item having its type), and no statement rejected.  Then completing it answers
with success and appends to the ledger exactly one move per BOM line of the
product: `lines` is the list of those BOM lines, in ascending `item_id`, and the
move for a line has the line's item, no batch, quantity
`-|qty_per * quantity|`, reason `WO-ISSUE`, the order's code as reference and
the one timestamp of the request.  Nothing else changes except that the order
becomes `DONE` with `completed_at` equal to that timestamp. -/
theorem complete_open_order_issues_bom (env : Env) (code : String) (s : Store)
    (wo : WorkOrder) (hmem : wo ∈ s.work_orders) (hcode : wo.code = code)
    (huniq : s.work_orders.Pairwise (fun a b => a.code ≠ b.code))
    (hopen : wo.status = "OPEN")
    (htypes : ∀ i ∈ s.items, ∃ t ∈ s.item_types, t.id = i.type_id)
    (hitems : ∀ l ∈ s.bom, l.product_id = wo.product_id → ∃ i ∈ s.items, i.id = l.item_id)
    (hok : ∀ k, env.fails k = false) :
    ∃ lines : List BomRow,
      lines.Perm (s.bom.filter (fun l => decide (l.product_id = wo.product_id))) ∧
      lines.Sorted (fun a b => a.item_id ≤ b.item_id) ∧
      completeWorkOrder env code s =
        ({ s with
            stock_moves := s.stock_moves ++ lines.map (fun l =>
              { item_id := l.item_id, batch_id := none, qty := -|l.qty_per * wo.quantity|,
                reason := "WO-ISSUE", ref := some code, created_at := env.now }),
            work_orders := s.work_orders.map (fun w =>
              if w.id = wo.id then
                { w with status := "DONE", completed_at := some env.now, updated_at := env.now }
              else w) },
         .completeOk env.now) ∧
      { wo with status := "DONE", completed_at := some env.now, updated_at := env.now } ∈
        (completeWorkOrder env code s).1.work_orders ∧
      ∀ w ∈ (completeWorkOrder env code s).1.work_orders, w.code = code →
        w = { wo with status := "DONE", completed_at := some env.now, updated_at := env.now } := by
  have hwo : getWOByCode s code = some wo := find_code_of_mem _ code wo hmem hcode huniq
  have hst : wo.status ≠ "DONE" := by rw [hopen]; decide
  have h := completeWorkOrder_ok env code s wo hwo hst
    (getBomRows_items s wo.product_id htypes hitems) (fun j _ => hok j)
  have hafter := orders_after_done s.work_orders code env.now wo hmem hcode huniq
  refine ⟨getBomRows s wo.product_id, getBomRows_perm s _, getBomRows_sorted s _, ?_, ?_, ?_⟩
  · rw [h]
    simp [woIssue, hcode]
  · rw [h]
    simpa using hafter.1
  · rw [h]
    simpa using hafter.2

/-- C2 on the example shop, whose work order is for 3 units of product 1 (BOM
A: 6 per unit, B: 8 per unit) while product 2 has a BOM line of its own: the
completion appends exactly the two moves A: -18 and B: -24. -/
theorem complete_open_order_issues_bom_witness :
    (∃ lines : List BomRow,
      lines.Perm (shop.bom.filter (fun l => decide (l.product_id = orderW.product_id))) ∧
      lines.Sorted (fun a b => a.item_id ≤ b.item_id) ∧
      completeWorkOrder (calm "t1" "") "WO-AAAAAA" shop =
        ({ shop with
            stock_moves := shop.stock_moves ++ lines.map (fun l =>
              { item_id := l.item_id, batch_id := none,
                qty := -|l.qty_per * orderW.quantity|,
                reason := "WO-ISSUE", ref := some "WO-AAAAAA",
                created_at := (calm "t1" "").now }),
            work_orders := shop.work_orders.map (fun w =>
              if w.id = orderW.id then
                { w with status := "DONE", completed_at := some (calm "t1" "").now,
                         updated_at := (calm "t1" "").now }
              else w) },
         .completeOk (calm "t1" "").now) ∧
      { orderW with status := "DONE", completed_at := some (calm "t1" "").now,
                    updated_at := (calm "t1" "").now } ∈
        (completeWorkOrder (calm "t1" "") "WO-AAAAAA" shop).1.work_orders ∧
      ∀ w ∈ (completeWorkOrder (calm "t1" "") "WO-AAAAAA" shop).1.work_orders,
        w.code = "WO-AAAAAA" →
        w = { orderW with status := "DONE", completed_at := some (calm "t1" "").now,
                          updated_at := (calm "t1" "").now }) ∧
    (completeWorkOrder (calm "t1" "") "WO-AAAAAA" shop).2 = .completeOk "t1" ∧
    (completeWorkOrder (calm "t1" "") "WO-AAAAAA" shop).1.stock_moves =
      [{ item_id := 1, batch_id := none, qty := -18, reason := "WO-ISSUE",
         ref := some "WO-AAAAAA", created_at := "t1" },
       { item_id := 2, batch_id := none, qty := -24, reason := "WO-ISSUE",
         ref := some "WO-AAAAAA", created_at := "t1" }] ∧
    (completeWorkOrder (calm "t1" "") "WO-AAAAAA" shop).1.work_orders =
      [{ orderW with status := "DONE", completed_at := some "t1", updated_at := "t1" }] := by
  refine ⟨complete_open_order_issues_bom (calm "t1" "") "WO-AAAAAA" shop orderW
      (by simp [shop]) rfl (by simp [shop]) rfl
      (by simp [shop, itemA, itemB])
      (by simp [shop, itemA, itemB, orderW])
      (fun _ => rfl), ?_, ?_, ?_⟩
  · simp [completeWorkOrder, getWOByCode, shop, orderW, getBomRows, issueComponents,
      getItemById, itemA, itemB, insMove, setWODone, calm]
  · simp [completeWorkOrder, getWOByCode, shop, orderW, getBomRows, issueComponents,
      getItemById, itemA, itemB, insMove, setWODone, calm]
    norm_num [abs_of_nonneg]
  · simp [completeWorkOrder, getWOByCode, shop, orderW, getBomRows, issueComponents,
      getItemById, itemA, itemB, insMove, setWODone, calm]

/-- C3, as the code behaves.  Let `wo` be the OPEN work order of code `code`
(codes being unique), every BOM line of its product referring to an existing
item, and `lines` the BOM lines of the product in ascending `item_id`, the
order in which the handler writes them.  When the `k`-th write of the
completion (`k` counted from 0; `k < n` is the insert for `lines[k]`, `k = n`
the status update) is the first one the store rejects, the handler throws and
leaves behind the store it started from plus the `WO-ISSUE` moves of the
first `k` lines; the work order, with its status and `completed_at`, is
unchanged. -/
theorem complete_failure_keeps_earlier_moves (env : Env) (code : String) (s : Store)
    (wo : WorkOrder) (k : Nat) (hmem : wo ∈ s.work_orders) (hcode : wo.code = code)
    (huniq : s.work_orders.Pairwise (fun a b => a.code ≠ b.code))
    (hopen : wo.status = "OPEN")
    (htypes : ∀ i ∈ s.items, ∃ t ∈ s.item_types, t.id = i.type_id)
    (hitems : ∀ l ∈ s.bom, l.product_id = wo.product_id → ∃ i ∈ s.items, i.id = l.item_id)
    (hk : k ≤ (s.bom.filter (fun l => decide (l.product_id = wo.product_id))).length)
    (hfail : env.fails k = true) (hbefore : ∀ j, j < k → env.fails j = false) :
    ∃ lines : List BomRow,
      lines.Perm (s.bom.filter (fun l => decide (l.product_id = wo.product_id))) ∧
      lines.Sorted (fun a b => a.item_id ≤ b.item_id) ∧
      completeWorkOrder env code s =
        ({ s with stock_moves := s.stock_moves ++ (lines.take k).map (fun l =>
            { item_id := l.item_id, batch_id := none, qty := -|l.qty_per * wo.quantity|,
              reason := "WO-ISSUE", ref := some code, created_at := env.now }) },
         .thrown) := by
  have hwo : getWOByCode s code = some wo := find_code_of_mem _ code wo hmem hcode huniq
  have hst : wo.status ≠ "DONE" := by rw [hopen]; decide
  have hlen : k ≤ (getBomRows s wo.product_id).length := by
    rw [(getBomRows_perm s wo.product_id).length_eq]
    exact hk
  have h := completeWorkOrder_fail env code s wo k hwo hst
    (getBomRows_items s wo.product_id htypes hitems) hlen hfail hbefore
  have hfun : woIssue wo env.now = fun l : BomRow =>
      ({ item_id := l.item_id, batch_id := none, qty := -|l.qty_per * wo.quantity|,
         reason := "WO-ISSUE", ref := some code, created_at := env.now } : StockMove) := by
    funext l
    simp [woIssue, hcode]
  refine ⟨getBomRows s wo.product_id, getBomRows_perm s _, getBomRows_sorted s _, ?_⟩
  rw [h, hfun]

/-- C3 on the example shop: the insert for the second line (write 1 of the
writes 0, 1, 2) is rejected; the move A: -18 of the first line stays in the
ledger and the order stays OPEN. -/
theorem complete_failure_keeps_earlier_moves_witness :
    (failing "t1" "" 1).fails 1 = true ∧
    (∃ lines : List BomRow,
      lines.Perm (shop.bom.filter (fun l => decide (l.product_id = orderW.product_id))) ∧
      lines.Sorted (fun a b => a.item_id ≤ b.item_id) ∧
      completeWorkOrder (failing "t1" "" 1) "WO-AAAAAA" shop =
        ({ shop with stock_moves := shop.stock_moves ++ (lines.take 1).map (fun l =>
            { item_id := l.item_id, batch_id := none,
              qty := -|l.qty_per * orderW.quantity|,
              reason := "WO-ISSUE", ref := some "WO-AAAAAA",
              created_at := (failing "t1" "" 1).now }) },
         .thrown)) ∧
    completeWorkOrder (failing "t1" "" 1) "WO-AAAAAA" shop =
      ({ shop with stock_moves :=
          [{ item_id := 1, batch_id := none, qty := -18, reason := "WO-ISSUE",
             ref := some "WO-AAAAAA", created_at := "t1" }] },
       .thrown) := by
  refine ⟨rfl, complete_failure_keeps_earlier_moves (failing "t1" "" 1) "WO-AAAAAA" shop
      orderW 1 (by simp [shop]) rfl (by simp [shop]) rfl
      (by simp [shop, itemA, itemB])
      (by simp [shop, itemA, itemB, orderW])
      (by simp [shop, orderW]) rfl
      (by intro j hj; simp [failing]; omega), ?_⟩
  simp [completeWorkOrder, getWOByCode, shop, orderW, getBomRows, issueComponents,
    getItemById, itemA, itemB, insMove, failing]
  norm_num [abs_of_nonneg]

/-- C3 fails as stated: in the example shop, with the insert for the second
BOM line rejected, the completion leaves the first `WO-ISSUE` move in the
ledger, so the store differs from the store before the attempt. -/
theorem complete_not_atomic :
    getWOByCode shop "WO-AAAAAA" = some orderW ∧ orderW.status = "OPEN" ∧
    (getBomRows shop orderW.product_id).length = 2 ∧
    (failing "t1" "" 1).fails 1 = true ∧
    (completeWorkOrder (failing "t1" "" 1) "WO-AAAAAA" shop).2 = .thrown ∧
    (completeWorkOrder (failing "t1" "" 1) "WO-AAAAAA" shop).1.stock_moves =
      [{ item_id := 1, batch_id := none, qty := -18, reason := "WO-ISSUE",
         ref := some "WO-AAAAAA", created_at := "t1" }] ∧
    (completeWorkOrder (failing "t1" "" 1) "WO-AAAAAA" shop).1 ≠ shop := by
  have hmoves : (completeWorkOrder (failing "t1" "" 1) "WO-AAAAAA" shop).1.stock_moves =
      [{ item_id := 1, batch_id := none, qty := -18, reason := "WO-ISSUE",
         ref := some "WO-AAAAAA", created_at := "t1" }] := by
    simp [completeWorkOrder, getWOByCode, shop, orderW, getBomRows, issueComponents,
      getItemById, itemA, itemB, insMove, failing]
    norm_num [abs_of_nonneg]
  refine ⟨by simp [getWOByCode, shop, orderW], rfl, by simp [getBomRows, shop, orderW], rfl,
    ?_, hmoves, ?_⟩
  · simp [completeWorkOrder, getWOByCode, shop, orderW, getBomRows, issueComponents,
      getItemById, itemA, itemB, insMove, failing]
  · intro h
    rw [h] at hmoves
    simp [shop] at hmoves

/-- C4. A completion attempt on a work order whose status is DONE is answered
with the error "already done" (status 400) and leaves the whole store as it
was; and after a completion that succeeded, a second attempt on the same code,
in any environment, is rejected in that way, so the ledger after two attempts
is the ledger after one. -/
theorem complete_done_order_rejected (env env2 : Env) (code : String) (s : Store) :
    (∀ wo, getWOByCode s code = some wo → wo.status = "DONE" →
      completeWorkOrder env code s = (s, .error 400 "already done")) ∧
    (∀ t, (completeWorkOrder env code s).2 = .completeOk t →
      completeWorkOrder env2 code (completeWorkOrder env code s).1 =
        ((completeWorkOrder env code s).1, .error 400 "already done")) := by
  have hfirst : ∀ (e : Env) (s0 : Store) (wo : WorkOrder), getWOByCode s0 code = some wo →
      wo.status = "DONE" → completeWorkOrder e code s0 = (s0, .error 400 "already done") := by
    intro e s0 wo hwo hdone
    simp [completeWorkOrder, hwo, hdone]
  refine ⟨hfirst env s, ?_⟩
  intro t ht
  obtain ⟨wo, app, hwo, hs⟩ := completeWorkOrder_ok_inv env code s t ht
  have hfound := getWOByCode_after_done s code wo env.now (s.stock_moves ++ app) hwo
  rw [← hs] at hfound
  exact hfirst env2 _ _ hfound rfl

/-- C4 on the example shop: the order already DONE is rejected with the store
untouched, and the OPEN order completed once is rejected the second time. -/
theorem complete_done_order_rejected_witness :
    completeWorkOrder (calm "t2" "") "WO-AAAAAA" shopDone =
      (shopDone, .error 400 "already done") ∧
    completeWorkOrder (calm "t2" "") "WO-AAAAAA"
        (completeWorkOrder (calm "t1" "") "WO-AAAAAA" shop).1 =
      ((completeWorkOrder (calm "t1" "") "WO-AAAAAA" shop).1, .error 400 "already done") := by
  refine ⟨(complete_done_order_rejected (calm "t2" "") (calm "t2" "") "WO-AAAAAA" shopDone).1
      { orderW with status := "DONE", completed_at := some "t1" }
      (by simp [getWOByCode, shopDone, shop, orderW]) rfl,
    (complete_done_order_rejected (calm "t1" "") (calm "t2" "") "WO-AAAAAA" shop).2 "t1" ?_⟩
  simp [completeWorkOrder, getWOByCode, shop, orderW, getBomRows, issueComponents,
    getItemById, itemA, itemB, insMove, setWODone, calm]

/-- C5, as the code behaves: completion rejects exactly the DONE state.  Let
`wo` be the work order of code `code` (codes being unique).  If its status is
DONE the completion answers 400 "already done" and leaves the whole store
unchanged.  If its status is anything else the completion is never answered
with an error; and when every BOM line of the product refers to an existing
item and no statement is rejected, it succeeds and the order becomes `DONE`. -/
theorem complete_rejects_exactly_done (env : Env) (code : String) (s : Store)
    (wo : WorkOrder) (hmem : wo ∈ s.work_orders) (hcode : wo.code = code)
    (huniq : s.work_orders.Pairwise (fun a b => a.code ≠ b.code)) :
    (wo.status = "DONE" → completeWorkOrder env code s = (s, .error 400 "already done")) ∧
    (wo.status ≠ "DONE" → ∀ status msg, (completeWorkOrder env code s).2 ≠ .error status msg) ∧
    (wo.status ≠ "DONE" →
      (∀ i ∈ s.items, ∃ t ∈ s.item_types, t.id = i.type_id) →
      (∀ l ∈ s.bom, l.product_id = wo.product_id → ∃ i ∈ s.items, i.id = l.item_id) →
      (∀ k, env.fails k = false) →
      (completeWorkOrder env code s).2 = .completeOk env.now ∧
      ∀ w ∈ (completeWorkOrder env code s).1.work_orders, w.code = code →
        w = { wo with status := "DONE", completed_at := some env.now,
                      updated_at := env.now }) := by
  have hwo : getWOByCode s code = some wo := find_code_of_mem _ code wo hmem hcode huniq
  refine ⟨?_, ?_, ?_⟩
  · intro hdone
    simp [completeWorkOrder, hwo, hdone]
  · intro hst status msg
    unfold completeWorkOrder
    simp only [hwo, beq_iff_eq, hst, if_false]
    cases issueComponents env wo env.now (getBomRows s wo.product_id) 0 s with
    | error s1 => simp
    | ok s1 =>
      by_cases hf : env.fails (getBomRows s wo.product_id).length = true
      · simp [setWODone, hf]
      · simp [setWODone, hf]
  · intro hst htypes hitems hok
    have h := completeWorkOrder_ok env code s wo hwo hst
      (getBomRows_items s wo.product_id htypes hitems) (fun j _ => hok j)
    have hafter := orders_after_done s.work_orders code env.now wo hmem hcode huniq
    rw [h]
    exact ⟨rfl, by simpa using hafter.2⟩

/-- C5 on the example shops: the DONE order is rejected with the store
unchanged; the OPEN order is completed. -/
theorem complete_rejects_exactly_done_witness :
    completeWorkOrder (calm "t2" "") "WO-AAAAAA" shopDone =
      (shopDone, .error 400 "already done") ∧
    (∀ status msg,
      (completeWorkOrder (calm "t1" "") "WO-AAAAAA" shop).2 ≠ .error status msg) ∧
    (completeWorkOrder (calm "t1" "") "WO-AAAAAA" shop).2 = .completeOk "t1" := by
  have hdone := complete_rejects_exactly_done (calm "t2" "") "WO-AAAAAA" shopDone
    { orderW with status := "DONE", completed_at := some "t1" }
    (by simp [shopDone, shop]) rfl (by simp [shopDone, shop])
  have hopen := complete_rejects_exactly_done (calm "t1" "") "WO-AAAAAA" shop orderW
    (by simp [shop]) rfl (by simp [shop])
  have hst : orderW.status ≠ "DONE" := by decide
  exact ⟨hdone.1 rfl, hopen.2.1 hst,
    (hopen.2.2 hst (by simp [shop, itemA, itemB]) (by simp [shop, itemA, itemB, orderW])
      (fun _ => rfl)).1⟩

/-- C5 fails as stated: a work order whose status is CANCELED is not
rejected.  The completion answers with success, writes both `WO-ISSUE` moves
and turns the order to `DONE`. -/
theorem complete_canceled_order_goes_through :
    getWOByCode shopCanceled "WO-AAAAAA" = some { orderW with status := "CANCELED" } ∧
    (completeWorkOrder (calm "t1" "") "WO-AAAAAA" shopCanceled).2 = .completeOk "t1" ∧
    (completeWorkOrder (calm "t1" "") "WO-AAAAAA" shopCanceled).1.stock_moves =
      [{ item_id := 1, batch_id := none, qty := -18, reason := "WO-ISSUE",
         ref := some "WO-AAAAAA", created_at := "t1" },
       { item_id := 2, batch_id := none, qty := -24, reason := "WO-ISSUE",
         ref := some "WO-AAAAAA", created_at := "t1" }] ∧
    getWOByCode (completeWorkOrder (calm "t1" "") "WO-AAAAAA" shopCanceled).1 "WO-AAAAAA" =
      some { orderW with status := "DONE", completed_at := some "t1", updated_at := "t1" } := by
  refine ⟨by simp [getWOByCode, shopCanceled, shop, orderW], ?_, ?_, ?_⟩
  · simp [completeWorkOrder, getWOByCode, shopCanceled, shop, orderW, getBomRows,
      issueComponents, getItemById, itemA, itemB, insMove, setWODone, calm]
  · simp [completeWorkOrder, getWOByCode, shopCanceled, shop, orderW, getBomRows,
      issueComponents, getItemById, itemA, itemB, insMove, setWODone, calm]
    norm_num [abs_of_nonneg]
  · simp [completeWorkOrder, getWOByCode, shopCanceled, shop, orderW, getBomRows,
      issueComponents, getItemById, itemA, itemB, insMove, setWODone, calm]

/-! ## Receipts and the moving average -/

/-- C7, as the code behaves: for an existing item whose on-hand quantity `h`
before the receipt is so negative that `h + qty <= 0`, and for every prior
average, an accepted receipt of `qty > 0` at unit cost `c` returns and persists
exactly `c` as the item's average: the handler takes the branch `denom <= 0`
and stores `unit_cost` as submitted. -/
theorem receive_resets_average (env : Env) (req : ReceiveReq) (s : Store) (sku : String)
    (item : Item) (qty c : ℚ) (hsku : req.sku = some sku)
    (hitem : getItemBySku s sku = some item) (hqty : req.qty = some qty)
    (hc : req.unit_cost = some c) (hpos : 0 < qty)
    (hacc : ∃ code avg, (receive env req s).2 = .receiveOk code avg)
    (hh : getOnHand s item.id + qty ≤ 0) :
    (receive env req s).2 = .receiveOk env.batchCode c ∧
    getItemBySku (receive env req s).1 sku =
      some { item with avg_cost := c, updated_at := env.now } := by
  have h := receive_positive env req s sku item qty c hsku hitem hqty hc hpos hacc
  have havg : newAvg item.avg_cost (getOnHand s item.id) qty c = c := by
    unfold newAvg
    simp [not_lt.mpr hh]
  rw [h, havg]
  exact ⟨rfl, getItemBySku_after_update s sku item c env.now _ _ hitem⟩

/-- C7 on the example shop: item A has on-hand -10 and average 2; receiving 5
at 9.00 leaves the denominator at -5 and sets the average to 9.00. -/
theorem receive_resets_average_witness :
    getItemBySku shopDeepOverIssued "ALU-AAAAAA" =
      some { itemA with avg_cost := 2, updated_at := "t1" } ∧
    getOnHand shopDeepOverIssued itemA.id = -10 ∧
    (receive (calm "t3" "BTCH-BBBBBBBB") (recvA 5 9) shopDeepOverIssued).2 =
      .receiveOk "BTCH-BBBBBBBB" 9 ∧
    getItemBySku (receive (calm "t3" "BTCH-BBBBBBBB") (recvA 5 9) shopDeepOverIssued).1
        "ALU-AAAAAA" =
      some { itemA with avg_cost := 9, updated_at := "t3" } := by
  have hitem : getItemBySku shopDeepOverIssued "ALU-AAAAAA" =
      some { itemA with avg_cost := 2, updated_at := "t1" } := by
    simp [getItemBySku, shopDeepOverIssued, shopOverIssued, shop, itemA]
  have hoh : getOnHand shopDeepOverIssued itemA.id = -10 := by
    norm_num [getOnHand, shopDeepOverIssued, shopOverIssued, shop, itemA]
  have h := receive_resets_average (calm "t3" "BTCH-BBBBBBBB") (recvA 5 9) shopDeepOverIssued
    "ALU-AAAAAA" { itemA with avg_cost := 2, updated_at := "t1" } 5 9 rfl hitem rfl rfl
    (by norm_num)
    ⟨"BTCH-BBBBBBBB", 9, by
      simp [receive, shopDeepOverIssued, shopOverIssued, shop, recvA, calm, falsyStr,
        falsyNum, getItemBySku, itemA, itemB, insBatch, insMove, upItemAvgCost, nextBatchId,
        orNull, getOnHand, newAvg]
      norm_num⟩
    (by
      have : getOnHand shopDeepOverIssued
          ({ itemA with avg_cost := 2, updated_at := "t1" } : Item).id = -10 := hoh
      rw [this]
      norm_num)
  exact ⟨hitem, hoh, h.1, h.2⟩

/-- C7 fails as stated: item A, received 10 at 2.00 and then issued 11, has
on-hand -1 and average 2; an accepted receipt of 5 at 9.00 sets the average to
43/4 = 10.75, not 9.00. -/
theorem receive_on_negative_onhand_blends :
    run shop [.receive (calm "t1" "BTCH-AAAAAAAA") (recvA 10 2),
              .move (calm "t2" "") (moveA 11 "ISSUE")] = shopOverIssued ∧
    getItemBySku shopOverIssued "ALU-AAAAAA" =
      some { itemA with avg_cost := 2, updated_at := "t1" } ∧
    getOnHand shopOverIssued itemA.id = -1 ∧
    (receive (calm "t3" "BTCH-BBBBBBBB") (recvA 5 9) shopOverIssued).2 =
      .receiveOk "BTCH-BBBBBBBB" (43 / 4) ∧
    getItemBySku (receive (calm "t3" "BTCH-BBBBBBBB") (recvA 5 9) shopOverIssued).1
        "ALU-AAAAAA" =
      some { itemA with avg_cost := 43 / 4, updated_at := "t3" } ∧
    (43 / 4 : ℚ) ≠ 9 := by
  refine ⟨?_, ?_, ?_, ?_, ?_, by norm_num⟩
  · simp [run, serve, receive, move, shop, shopOverIssued, recvA, moveA, calm, falsyStr,
      falsyNum, getItemBySku, itemA, itemB, insBatch, insMove, upItemAvgCost, nextBatchId,
      orNull, getOnHand, newAvg, signedQty, orderW]
  · simp [getItemBySku, shopOverIssued, shop, itemA]
  · norm_num [getOnHand, shopOverIssued, shop, itemA]
  · simp [receive, shopOverIssued, shop, recvA, calm, falsyStr, falsyNum, getItemBySku,
      itemA, itemB, insBatch, insMove, upItemAvgCost, nextBatchId, orNull, getOnHand, newAvg]
    norm_num
  · simp [receive, shopOverIssued, shop, recvA, calm, falsyStr, falsyNum, getItemBySku,
      itemA, itemB, insBatch, insMove, upItemAvgCost, nextBatchId, orNull, getOnHand, newAvg]
    norm_num

/-- C8, as the code behaves: for a numeric `qty` and a numeric non-zero
`unit_cost`, with an unused batch code and no statement rejected by the store,
`POST /api/receive` succeeds if and only if the sku is non-empty and resolves to
an existing item and `qty` is not zero.  When it succeeds it creates one batch
recording `qty` and `unit_cost` as submitted, one `RECEIVE` move of `|qty|`
tied to that batch, and updates the item's average to the returned value.
Otherwise it answers with an error and leaves the whole store unchanged. -/
theorem receive_accepted_iff (env : Env) (req : ReceiveReq) (s : Store) (qty c : ℚ)
    (hqty : req.qty = some qty) (hc : req.unit_cost = some c) (hc0 : c ≠ 0)
    (hok : ∀ k, env.fails k = false)
    (hfresh : s.batches.any (fun b => b.code == env.batchCode) = false) :
    ((∃ code avg, (receive env req s).2 = .receiveOk code avg) ↔
      ∃ sku item, req.sku = some sku ∧ sku ≠ "" ∧ getItemBySku s sku = some item ∧ qty ≠ 0) ∧
    (∀ sku item, req.sku = some sku → sku ≠ "" → getItemBySku s sku = some item → qty ≠ 0 →
      ∃ avg, (receive env req s).2 = .receiveOk env.batchCode avg ∧
        (receive env req s).1.batches = s.batches ++
          [{ id := nextBatchId s, code := env.batchCode, item_id := item.id,
             supplier := orNull req.supplier, received_at := env.now,
             expires_at := orNull req.expires_at, qty := qty, unit_cost := c,
             created_at := env.now }] ∧
        (receive env req s).1.stock_moves = s.stock_moves ++
          [{ item_id := item.id, batch_id := some (nextBatchId s), qty := |qty|,
             reason := "RECEIVE", ref := some env.batchCode, created_at := env.now }] ∧
        getItemBySku (receive env req s).1 sku =
          some { item with avg_cost := avg, updated_at := env.now }) ∧
    ((¬ ∃ code avg, (receive env req s).2 = .receiveOk code avg) →
      ∃ status msg, receive env req s = (s, .error status msg)) := by
  have hyes : ∀ sku item, req.sku = some sku → sku ≠ "" → getItemBySku s sku = some item →
      qty ≠ 0 →
      receive env req s =
        ({ s with
            batches := s.batches ++
              [{ id := nextBatchId s, code := env.batchCode, item_id := item.id,
                 supplier := orNull req.supplier, received_at := env.now,
                 expires_at := orNull req.expires_at, qty := qty, unit_cost := c,
                 created_at := env.now }],
            stock_moves := s.stock_moves ++
              [{ item_id := item.id, batch_id := some (nextBatchId s), qty := |qty|,
                 reason := "RECEIVE", ref := some env.batchCode, created_at := env.now }],
            items := s.items.map (fun i =>
              if i.id == item.id then
                { i with
                    avg_cost := newAvg item.avg_cost (getOnHand s item.id + |qty| - qty) qty c,
                    updated_at := env.now }
              else i) },
         .receiveOk env.batchCode
            (newAvg item.avg_cost (getOnHand s item.id + |qty| - qty) qty c)) := by
    intro sku item hsku hs hitem hq
    exact receive_accepted env req s sku item qty c hsku hqty hc hitem hs hq hc0 (hok 0)
      (hok 1) (hok 2) hfresh
  have hiff : (∃ code avg, (receive env req s).2 = .receiveOk code avg) ↔
      ∃ sku item, req.sku = some sku ∧ sku ≠ "" ∧ getItemBySku s sku = some item ∧ qty ≠ 0 := by
    constructor
    · rintro ⟨code, avg, h⟩
      obtain ⟨sku, item, qty2, c2, h1, h2, _, h4, hs, hq, _⟩ :=
        receive_accepted_inv env req s code avg h
      rw [hqty] at h2
      simp only [Option.some.injEq] at h2
      subst h2
      exact ⟨sku, item, h1, hs, h4, hq⟩
    · rintro ⟨sku, item, hsku, hs, hitem, hq⟩
      exact ⟨_, _, by rw [hyes sku item hsku hs hitem hq]⟩
  refine ⟨hiff, ?_, ?_⟩
  · intro sku item hsku hs hitem hq
    refine ⟨newAvg item.avg_cost (getOnHand s item.id + |qty| - qty) qty c, ?_⟩
    rw [hyes sku item hsku hs hitem hq]
    exact ⟨rfl, rfl, rfl, getItemBySku_after_update s sku item _ env.now _ _ hitem⟩
  · intro hno
    rw [hiff] at hno
    cases hsku : req.sku with
    | none => exact ⟨400, "sku, qty, unit_cost required", by simp [receive, falsyStr, hsku]⟩
    | some sku =>
      by_cases hs : sku = ""
      · exact ⟨400, "sku, qty, unit_cost required", by simp [receive, falsyStr, hsku, hs]⟩
      · by_cases hq : qty = 0
        · exact ⟨400, "sku, qty, unit_cost required",
            by simp [receive, falsyStr, falsyNum, hsku, hqty, hq]⟩
        · cases hitem : getItemBySku s sku with
          | none =>
            exact ⟨404, "item not found",
              by simp [receive, falsyStr, falsyNum, hsku, hqty, hc, hs, hq, hc0, hitem]⟩
          | some item => exact absurd ⟨sku, item, hsku, hs, hitem, hq⟩ hno

/-- C8 on the example shop: a receipt of 5 at 2.00 for item A is accepted. -/
theorem receive_accepted_iff_witness :
    (∃ code avg, (receive (calm "t1" "BTCH-AAAAAAAA") (recvA 5 2) shop).2 =
      .receiveOk code avg) ∧
    ∃ avg, (receive (calm "t1" "BTCH-AAAAAAAA") (recvA 5 2) shop).2 =
        .receiveOk "BTCH-AAAAAAAA" avg ∧
      (receive (calm "t1" "BTCH-AAAAAAAA") (recvA 5 2) shop).1.batches =
        [{ id := 1, code := "BTCH-AAAAAAAA", item_id := 1, supplier := none,
           received_at := "t1", expires_at := none, qty := 5, unit_cost := 2,
           created_at := "t1" }] := by
  have h := receive_accepted_iff (calm "t1" "BTCH-AAAAAAAA") (recvA 5 2) shop 5 2 rfl rfl
    (by norm_num) (fun _ => rfl) (by simp [shop])
  have hitem : getItemBySku shop "ALU-AAAAAA" = some itemA := by
    simp [getItemBySku, shop, itemA]
  refine ⟨h.1.mpr ⟨"ALU-AAAAAA", itemA, rfl, by decide, hitem, by norm_num⟩, ?_⟩
  obtain ⟨avg, h1, h2, _⟩ := h.2.1 "ALU-AAAAAA" itemA rfl (by decide) hitem (by norm_num)
  refine ⟨avg, h1, ?_⟩
  rw [h2]
  simp [shop, nextBatchId, calm, recvA, orNull, itemA]

/-- C8 fails as stated: a receipt of -5 at 2.00 for item A is accepted.  It
creates a batch with quantity -5 and a `RECEIVE` move of +5. -/
theorem receive_negative_qty_accepted :
    getItemBySku shop "ALU-AAAAAA" = some itemA ∧
    (receive (calm "t1" "BTCH-AAAAAAAA") (recvA (-5) 2) shop).2 =
      .receiveOk "BTCH-AAAAAAAA" (-2) ∧
    (receive (calm "t1" "BTCH-AAAAAAAA") (recvA (-5) 2) shop).1.batches =
      [{ id := 1, code := "BTCH-AAAAAAAA", item_id := 1, supplier := none,
         received_at := "t1", expires_at := none, qty := -5, unit_cost := 2,
         created_at := "t1" }] ∧
    (receive (calm "t1" "BTCH-AAAAAAAA") (recvA (-5) 2) shop).1.stock_moves =
      [{ item_id := 1, batch_id := some 1, qty := 5, reason := "RECEIVE",
         ref := some "BTCH-AAAAAAAA", created_at := "t1" }] ∧
    ¬ ((0 : ℚ) < -5) := by
  refine ⟨by simp [getItemBySku, shop, itemA], ?_, ?_, ?_, by norm_num⟩
  · simp [receive, shop, recvA, calm, falsyStr, falsyNum, getItemBySku, itemA, itemB, insBatch,
      insMove, upItemAvgCost, nextBatchId, orNull, getOnHand, newAvg]
    norm_num
  · simp [receive, shop, recvA, calm, falsyStr, falsyNum, getItemBySku, itemA, itemB, insBatch,
      insMove, upItemAvgCost, nextBatchId, orNull, getOnHand, newAvg]
  · simp [receive, shop, recvA, calm, falsyStr, falsyNum, getItemBySku, itemA, itemB, insBatch,
      insMove, upItemAvgCost, nextBatchId, orNull, getOnHand, newAvg]

/-! ## Manual moves -/

/-- C6, as the code behaves.  For an existing item (designated by its
non-empty sku), a non-zero `qty` of either sign and a non-empty reason, with
the insert not rejected,
`POST /api/move` appends exactly one move with that reason and no batch whose
quantity is `-|qty|` when the reason is `ISSUE`, `WO-ISSUE` or `ADJUST-` and
`|qty|` for every other reason; submitting `-qty` instead of `qty` gives the
same store and answer. -/
theorem move_sign_convention (env : Env) (req : MoveReq) (s : Store) (sku : String)
    (item : Item) (qty : ℚ) (reason : String) (hsku : req.sku = some sku) (hs : sku ≠ "")
    (hitem : getItemBySku s sku = some item) (hqty : req.qty = some qty) (hq : qty ≠ 0)
    (hreason : req.reason = some reason) (hr : reason ≠ "") (hok : env.fails 0 = false) :
    move env req s =
      ({ s with stock_moves := s.stock_moves ++
          [{ item_id := item.id, batch_id := none,
             qty := if reason = "ISSUE" ∨ reason = "WO-ISSUE" ∨ reason = "ADJUST-" then -|qty|
                    else |qty|,
             reason := reason, ref := orNull req.ref, created_at := env.now }] },
       .moveOk) ∧
    move env { req with qty := some (-qty) } s = move env req s := by
  have h1 := move_accepted env req s sku item qty reason hsku hqty hreason hitem hs hq hr hok
  have h2 := move_accepted env { req with qty := some (-qty) } s sku item (-qty) reason hsku rfl
    hreason hitem hs (neg_ne_zero.mpr hq) hr hok
  refine ⟨?_, ?_⟩
  · rw [h1]
    simp [signedQty, or_assoc]
  · rw [h1, h2]
    simp [signedQty]

/-- C6 on the example shop: a move of 5 with reason `ISSUE` stores -5 and a
move of 5 with reason `ADJUST+` stores +5. -/
theorem move_sign_convention_witness :
    (move (calm "t1" "") (moveA 5 "ISSUE") shop).1.stock_moves =
      [{ item_id := 1, batch_id := none, qty := -5, reason := "ISSUE", ref := none,
         created_at := "t1" }] ∧
    (move (calm "t1" "") (moveA 5 "ADJUST+") shop).1.stock_moves =
      [{ item_id := 1, batch_id := none, qty := 5, reason := "ADJUST+", ref := none,
         created_at := "t1" }] := by
  have hitem : getItemBySku shop "ALU-AAAAAA" = some itemA := by
    simp [getItemBySku, shop, itemA]
  have h1 := (move_sign_convention (calm "t1" "") (moveA 5 "ISSUE") shop "ALU-AAAAAA" itemA 5
    "ISSUE" rfl (by decide) hitem rfl (by norm_num) rfl (by decide) rfl).1
  have h2 := (move_sign_convention (calm "t1" "") (moveA 5 "ADJUST+") shop "ALU-AAAAAA" itemA 5
    "ADJUST+" rfl (by decide) hitem rfl (by norm_num) rfl (by decide) rfl).1
  rw [h1, h2]
  constructor
  · simp [shop, itemA, moveA, orNull, calm]
  · simp [shop, itemA, moveA, orNull, calm]

/-- C6 fails as stated: with the empty string as reason the request is
answered 400 and no move is appended. -/
theorem move_empty_reason_rejected :
    getItemBySku shop "ALU-AAAAAA" = some itemA ∧
    move (calm "t1" "") (moveA 5 "") shop = (shop, .error 400 "sku, qty, reason required") ∧
    (move (calm "t1" "") (moveA 5 "") shop).1.stock_moves = shop.stock_moves := by
  refine ⟨by simp [getItemBySku, shop, itemA], ?_, ?_⟩
  · simp [move, moveA, falsyStr, falsyNum]
  · simp [move, moveA, falsyStr, falsyNum]

/-! ## Invariants of the ledger and of the average cost -/

/-- C9, as the code behaves: starting from a store in which every item's
average cost is 0 (the initial state in particular), after any finite sequence
of receive, move and completion requests in which every receipt has `qty > 0`
and `unit_cost >= 0` and meets an on-hand quantity `h` of its item with `h >= 0`
or `h + qty <= 0`, every item's average cost is `>= 0`. -/
theorem avg_cost_nonneg_without_over_issue (s0 : Store) (ops : List Op)
    (hinit : ∀ i ∈ s0.items, i.avg_cost = 0) (hsafe : NoOverIssuedReceipt s0 ops) :
    ∀ i ∈ (run s0 ops).items, 0 ≤ i.avg_cost :=
  run_avg_nonneg ops s0 (fun i hi => le_of_eq (hinit i hi).symm) hsafe

/-- C9 on the example shop: receive 10 at 2.00, issue 5, complete the work
order, receive 10 at 4.00; every receipt meets a non-negative on-hand and every
average ends non-negative. -/
theorem avg_cost_nonneg_without_over_issue_witness :
    NoOverIssuedReceipt shop
      [.receive (calm "t1" "BTCH-AAAAAAAA") (recvA 10 2),
       .move (calm "t2" "") (moveA 5 "ISSUE"),
       .complete (calm "t3" "") "WO-AAAAAA",
       .receive (calm "t4" "BTCH-BBBBBBBB") (recvA 10 4)] ∧
    (run shop [.receive (calm "t1" "BTCH-AAAAAAAA") (recvA 10 2),
               .move (calm "t2" "") (moveA 5 "ISSUE"),
               .complete (calm "t3" "") "WO-AAAAAA",
               .receive (calm "t4" "BTCH-BBBBBBBB") (recvA 10 4)]).items.all
      (fun i => decide (0 ≤ i.avg_cost)) = true := by
  have hsafe : NoOverIssuedReceipt shop
      [.receive (calm "t1" "BTCH-AAAAAAAA") (recvA 10 2),
       .move (calm "t2" "") (moveA 5 "ISSUE"),
       .complete (calm "t3" "") "WO-AAAAAA",
       .receive (calm "t4" "BTCH-BBBBBBBB") (recvA 10 4)] := by
    refine ⟨?_, trivial, trivial, ?_, trivial⟩
    · intro sku item qty c h1 h2 h3 h4
      simp only [recvA, Option.some.injEq] at h1 h2 h3
      subst h1 h2 h3
      simp [getItemBySku, shop, itemA] at h4
      subst h4
      norm_num [getOnHand, shop]
    · intro sku item qty c h1 h2 h3 h4
      simp only [recvA, Option.some.injEq] at h1 h2 h3
      subst h1 h2 h3
      have hs : (serve (serve (serve shop (.receive (calm "t1" "BTCH-AAAAAAAA") (recvA 10 2))).1
          (.move (calm "t2" "") (moveA 5 "ISSUE"))).1 (.complete (calm "t3" "") "WO-AAAAAA")).1
          = { shop with
                items := [{ itemA with avg_cost := 2, updated_at := "t1" }, itemB],
                batches := [{ id := 1, code := "BTCH-AAAAAAAA", item_id := 1, supplier := none,
                              received_at := "t1", expires_at := none, qty := 10,
                              unit_cost := 2, created_at := "t1" }],
                stock_moves :=
                  [{ item_id := 1, batch_id := some 1, qty := 10, reason := "RECEIVE",
                     ref := some "BTCH-AAAAAAAA", created_at := "t1" },
                   { item_id := 1, batch_id := none, qty := -5, reason := "ISSUE", ref := none,
                     created_at := "t2" },
                   { item_id := 1, batch_id := none, qty := -18, reason := "WO-ISSUE",
                     ref := some "WO-AAAAAA", created_at := "t3" },
                   { item_id := 2, batch_id := none, qty := -24, reason := "WO-ISSUE",
                     ref := some "WO-AAAAAA", created_at := "t3" }],
                work_orders := [{ orderW with status := "DONE", completed_at := some "t3",
                                              updated_at := "t3" }] } := by
        simp [serve, receive, move, completeWorkOrder, shop, recvA, moveA, calm, falsyStr,
          falsyNum, getItemBySku, getItemById, getWOByCode, getBomRows, issueComponents,
          setWODone, itemA, itemB, insBatch, insMove, upItemAvgCost, nextBatchId, orNull,
          getOnHand, newAvg, signedQty, orderW]
        norm_num [abs_of_nonneg]
      rw [hs] at h4 ⊢
      simp [getItemBySku, shop, itemA] at h4
      subst h4
      norm_num [getOnHand, shop]
  refine ⟨hsafe, List.all_eq_true.mpr (fun i hi => decide_eq_true ?_)⟩
  exact avg_cost_nonneg_without_over_issue shop _ (by simp [shop, itemA, itemB]) hsafe i hi

/-- C9 fails as stated: from the fresh shop, the accepted requests receive 10
at 2.00, issue 15, receive 10 at 0.50 leave item A with average cost -1. -/
theorem avg_cost_goes_negative :
    shop.stock_moves = [] ∧ (∀ i ∈ shop.items, i.avg_cost = 0) ∧
    (serve shop (.receive (calm "t1" "BTCH-AAAAAAAA") (recvA 10 2))).2 =
      .receiveOk "BTCH-AAAAAAAA" 2 ∧
    (serve (run shop [.receive (calm "t1" "BTCH-AAAAAAAA") (recvA 10 2)])
      (.move (calm "t2" "") (moveA 15 "ISSUE"))).2 = .moveOk ∧
    (serve (run shop [.receive (calm "t1" "BTCH-AAAAAAAA") (recvA 10 2),
                      .move (calm "t2" "") (moveA 15 "ISSUE")])
      (.receive (calm "t3" "BTCH-BBBBBBBB") (recvA 10 (1 / 2)))).2 =
      .receiveOk "BTCH-BBBBBBBB" (-1) ∧
    getItemBySku (run shop [.receive (calm "t1" "BTCH-AAAAAAAA") (recvA 10 2),
                            .move (calm "t2" "") (moveA 15 "ISSUE"),
                            .receive (calm "t3" "BTCH-BBBBBBBB") (recvA 10 (1 / 2))])
        "ALU-AAAAAA" =
      some { itemA with avg_cost := -1, updated_at := "t3" } ∧
    ¬ ((0 : ℚ) ≤ -1) := by
  refine ⟨rfl, by simp [shop, itemA, itemB], ?_, ?_, ?_, ?_, by norm_num⟩
  · simp [serve, receive, shop, recvA, calm, falsyStr, falsyNum, getItemBySku, itemA, itemB,
      insBatch, insMove, upItemAvgCost, nextBatchId, orNull, getOnHand, newAvg]
  · simp [run, serve, receive, move, shop, recvA, moveA, calm, falsyStr, falsyNum,
      getItemBySku, itemA, itemB, insBatch, insMove, upItemAvgCost, nextBatchId, orNull,
      getOnHand, newAvg, signedQty]
  · simp [run, serve, receive, move, shop, recvA, moveA, calm, falsyStr, falsyNum,
      getItemBySku, itemA, itemB, insBatch, insMove, upItemAvgCost, nextBatchId, orNull,
      getOnHand, newAvg, signedQty]
    norm_num
  · simp [run, serve, receive, move, shop, recvA, moveA, calm, falsyStr, falsyNum,
      getItemBySku, itemA, itemB, insBatch, insMove, upItemAvgCost, nextBatchId, orNull,
      getOnHand, newAvg, signedQty]
    norm_num

/-- C10. Serving any request (receive, move or completion; accepted, rejected
or thrown) leaves the ledger it found as a prefix of the ledger it leaves:
`app` is what it appended.  The on-hand quantity of an item is the sum of the
quantities of its moves, 0 when it has none; so serving the request changes
the on-hand of every item by exactly the sum of the appended moves of that
item, and not at all when none of the appended moves is for that item. -/
theorem ledger_append_only (s : Store) (op : Op) :
    ∃ app, (serve s op).1.stock_moves = s.stock_moves ++ app ∧
      (∀ id, getOnHand s id = ledgerSum s.stock_moves id) ∧
      (∀ id, (∀ m ∈ s.stock_moves, m.item_id ≠ id) → getOnHand s id = 0) ∧
      (∀ id, getOnHand (serve s op).1 id = getOnHand s id + ledgerSum app id) ∧
      (∀ id, (∀ m ∈ app, m.item_id ≠ id) → getOnHand (serve s op).1 id = getOnHand s id) := by
  have happ : ∃ app, (serve s op).1.stock_moves = s.stock_moves ++ app := by
    cases op with
    | receive env req => exact receive_appends env req s
    | move env req =>
      obtain ⟨app, h⟩ := move_appends env req s
      exact ⟨app, by simp only [serve, h]⟩
    | complete env code =>
      obtain ⟨app, h, _⟩ := completeWorkOrder_appends env code s
      exact ⟨app, h⟩
  obtain ⟨app, h⟩ := happ
  have hdelta : ∀ id, getOnHand (serve s op).1 id = getOnHand s id + ledgerSum app id := by
    intro id
    rw [getOnHand_eq_ledgerSum, getOnHand_eq_ledgerSum, h, ledgerSum_append]
  refine ⟨app, h, getOnHand_eq_ledgerSum s, ?_, hdelta, ?_⟩
  · intro id hnone
    rw [getOnHand_eq_ledgerSum, ledgerSum_eq_zero _ _ hnone]
  · intro id hnone
    rw [hdelta, ledgerSum_eq_zero _ _ hnone, add_zero]

/-- C10 on the example shop: completing the work order appends the two
component issues and changes the on-hand quantities by their sums. -/
theorem ledger_append_only_witness :
    ∃ app, (serve shop (.complete (calm "t1" "") "WO-AAAAAA")).1.stock_moves =
        shop.stock_moves ++ app ∧
      (∀ id, getOnHand shop id = ledgerSum shop.stock_moves id) ∧
      (∀ id, (∀ m ∈ shop.stock_moves, m.item_id ≠ id) → getOnHand shop id = 0) ∧
      (∀ id, getOnHand (serve shop (.complete (calm "t1" "") "WO-AAAAAA")).1 id =
        getOnHand shop id + ledgerSum app id) ∧
      (∀ id, (∀ m ∈ app, m.item_id ≠ id) →
        getOnHand (serve shop (.complete (calm "t1" "") "WO-AAAAAA")).1 id =
          getOnHand shop id) :=
  ledger_append_only shop (.complete (calm "t1" "") "WO-AAAAAA")

end Inventory
